import Mathlib

/-!
Verification of the ZapZap speed-test client (zap.js and its LibreSpeed
variants).  The network, the clock and `Math.random()` are modelled as
explicit oracle inputs; each phase of the measurement flow is embedded as a
pure function over those oracles, following the JavaScript source line by
line.  All byte counts, durations and throughputs are rationals.
-/

/-! ## Data model -/

/-- One throughput round's record, as pushed onto `measurements` in
`ZapZapSpeedTest.testDownload` / `testUpload` (`{bytes, time, throughput}`). -/
structure Measurement where
  bytes : ℚ
  time : ℚ
  throughput : ℚ
deriving DecidableEq

/-- Round throughput in Mbps as computed in zap.js:
`(roundBytes * 8) / (roundTime * 1000)` where `roundTime` is in ms. -/
def roundThroughput (bytes timeMs : ℚ) : ℚ := bytes * 8 / (timeMs * 1000)

/-- Round throughput as computed in the LibreSpeed round loop (part_001):
`(roundBytes * 8) / (roundDuration / 1000) / 1000000`. -/
def lsRoundThroughput (bytes durMs : ℚ) : ℚ := bytes * 8 / (durMs / 1000) / 1000000

/-- Reported download Mbps of the simple LibreSpeed variant (part_003):
`sizeMB = blob.size / (1024 * 1024)`, `sec = (end - start) / 1000`,
`mbps = (sizeMB * 8) / sec`. -/
def ls3DownloadMbps (size ms : ℚ) : ℚ := size / (1024 * 1024) * 8 / (ms / 1000)

/-! ## Throughput phase (zap.js measurement loop) -/

/-- The constants a `ZapZapSpeedTest` throughput phase runs with. -/
structure ThroughputCfg where
  chunkSize : ℚ
  parallelStreams : ℕ
  tolerance : ℚ
  stabilityWindow : ℕ
  roundCap : ℕ
  minTestDuration : ℚ
  maxTestDuration : ℚ
deriving DecidableEq

/-- `ZapZapSpeedTest.testDownload`: 1MB chunks, 6 streams, 15% tolerance,
3 stable rounds, at most 50 rounds, 3s minimum, 15s maximum. -/
def zapDownloadCfg : ThroughputCfg :=
  { chunkSize := 1024 * 1024
    parallelStreams := 6
    tolerance := 15 / 100
    stabilityWindow := 3
    roundCap := 50
    minTestDuration := 3000
    maxTestDuration := 15000 }

/-- `ZapZapSpeedTest.testUpload`: 256KB chunks, 6 streams, 20% tolerance,
3 stable rounds, at most 30 rounds, 3s minimum, 15s maximum. -/
def zapUploadCfg : ThroughputCfg :=
  { chunkSize := 256 * 1024
    parallelStreams := 6
    tolerance := 20 / 100
    stabilityWindow := 3
    roundCap := 30
    minTestDuration := 3000
    maxTestDuration := 15000 }

/-- Mutable state of the measurement `while` loop in
`ZapZapSpeedTest.testDownload` / `testUpload`. -/
structure TPState where
  totalBytes : ℚ
  totalTime : ℚ
  measurements : List Measurement
  roundCount : ℕ
  stableCount : ℕ
  previousThroughput : ℚ
  isStable : Bool
deriving DecidableEq

/-- Loop state before the first round. -/
def tpInit : TPState :=
  { totalBytes := 0
    totalTime := 0
    measurements := []
    roundCount := 0
    stableCount := 0
    previousThroughput := 0
    isStable := false }

/-- Bytes of one round: `simulateDownloadChunk` / `simulateUploadChunk` always
resolves with its `size` argument, and the round sums the results of the
`parallelStreams` stream promises (`results.reduce((sum, bytes) => ...)`). -/
def tpRoundBytes (cfg : ThroughputCfg) : ℚ :=
  (List.replicate cfg.parallelStreams cfg.chunkSize).sum

/-- One round of the measurement loop.  `roundTime` is the measured duration of
the round (`performance.now() - roundStart`) and `totalAfter` is the elapsed
time since measurement start after the round
(`performance.now() - measurementStart`); both come from the clock oracle. -/
def tpRound (cfg : ThroughputCfg) (st : TPState) (roundTime totalAfter : ℚ) : TPState :=
  let roundBytes := tpRoundBytes cfg
  let currentThroughput := roundThroughput roundBytes roundTime
  { totalBytes := st.totalBytes + roundBytes
    totalTime := totalAfter
    measurements := st.measurements ++ [⟨roundBytes, roundTime, currentThroughput⟩]
    roundCount := st.roundCount + 1
    stableCount :=
      if 0 < st.previousThroughput then
        if |currentThroughput - st.previousThroughput| / st.previousThroughput
            < cfg.tolerance then
          st.stableCount + 1
        else 0
      else st.stableCount
    previousThroughput := currentThroughput
    isStable := st.isStable }

/-- The `break` after a successful stability check sets `isStable = true`. -/
def setStable (st : TPState) : TPState :=
  { st with isStable := true }

/-- The measurement `while` loop.  The clock oracle supplies one
`(roundTime, totalAfter)` pair per potential round; the loop stops when the
source's `while` condition fails or the stability `break` fires. -/
def tpLoop (cfg : ThroughputCfg) : TPState → List (ℚ × ℚ) → TPState
  | st, [] => st
  | st, (rt, ta) :: rest =>
    if st.totalTime < cfg.maxTestDuration ∧ st.roundCount < cfg.roundCap ∧
        st.isStable = false then
      if cfg.stabilityWindow ≤ (tpRound cfg st rt ta).stableCount ∧
          cfg.minTestDuration ≤ (tpRound cfg st rt ta).totalTime then
        setStable (tpRound cfg st rt ta)
      else
        tpLoop cfg (tpRound cfg st rt ta) rest
    else st

/-! ## Outlier trimming ("stable" throughput) -/

/-- Stable insertion of a measurement into a list sorted ascending by
throughput; models one step of the ascending `sort((a, b) => a.throughput -
b.throughput)`. -/
def insertSorted (m : Measurement) : List Measurement → List Measurement
  | [] => [m]
  | x :: xs =>
    if m.throughput ≤ x.throughput then m :: x :: xs else x :: insertSorted m xs

/-- `measurements.sort((a, b) => a.throughput - b.throughput)` — sort the round
records ascending by throughput. -/
def sortByThroughput : List Measurement → List Measurement
  | [] => []
  | x :: xs => insertSorted x (sortByThroughput xs)

/-- JavaScript `Array.prototype.slice(start, end)`. -/
def jsSlice {α : Type} (l : List α) (s e : ℕ) : List α := (l.drop s).take (e - s)

/-- The trimmed measurement set:
`sorted.slice(Math.floor(n * 0.1), Math.floor(n * (1 - 0.1)))`. -/
def trimmedMeasurements (ms : List Measurement) : List Measurement :=
  let sorted := sortByThroughput ms
  jsSlice sorted (sorted.length / 10) (sorted.length * 9 / 10)

/-- The "stable" throughput of a zap.js throughput phase: start from the
overall speed, and replace it by the mean of the trimmed measurement set when
that set is non-empty (lines 212-224 of zap.js). -/
def stableThroughputCalc (fallback : ℚ) (ms : List Measurement) : ℚ :=
  if 0 < ms.length then
    if 0 < (trimmedMeasurements ms).length then
      (trimmedMeasurements ms).foldl (fun s m => s + m.throughput) 0 /
        ((trimmedMeasurements ms).length : ℚ)
    else fallback
  else fallback

/-- Result object of a zap.js throughput phase. -/
structure TPResult where
  mbps : ℚ
  stableMbps : ℚ
  totalBytes : ℚ
  totalTime : ℚ
  stable : Bool
  measurements : ℕ
deriving DecidableEq

/-- A whole zap.js throughput phase: run the measurement loop, then compute
`mbps = (totalBytes * 8) / (totalTime * 1000)` and the stable throughput. -/
def tpResult (cfg : ThroughputCfg) (oracle : List (ℚ × ℚ)) : TPResult :=
  let st := tpLoop cfg tpInit oracle
  let mbps := st.totalBytes * 8 / (st.totalTime * 1000)
  { mbps := mbps
    stableMbps := stableThroughputCalc mbps st.measurements
    totalBytes := st.totalBytes
    totalTime := st.totalTime
    stable := st.isStable
    measurements := st.measurements.length }

/-! ## Ping phase -/

/-- `Math.random()`-derived fallback ping of zap.js:
`baseDelay (50) + Math.random() * 100`. -/
def zapPingFallback (r : ℚ) : ℚ := 50 + r * 100

/-- Collected samples of `ZapZapSpeedTest.testPing`: one request per sample
(the network oracle gives `some duration` on an ok response, `none` on a
failure or non-2xx status); only successes are pushed, and a single synthetic
fallback sample is pushed only when every sample failed. -/
def zapPingTests (pingSamples : ℕ) (oracle : ℕ → Option ℚ) (fallback : ℚ) : List ℚ :=
  let real := (List.range pingSamples).filterMap oracle
  if real.length = 0 then [fallback] else real

/-- JavaScript `arr.reduce((sum, x) => sum + x, 0)`. -/
def jsSum (l : List ℚ) : ℚ := l.foldl (· + ·) 0

/-- JavaScript `Math.min(...arr)` for the non-empty arrays the program builds. -/
def jsMin : List ℚ → ℚ
  | [] => 0
  | x :: xs => xs.foldl min x

/-- JavaScript `Math.max(...arr)` for the non-empty arrays the program builds. -/
def jsMax : List ℚ → ℚ
  | [] => 0
  | x :: xs => xs.foldl max x

/-- Result object of `ZapZapSpeedTest.testPing`. -/
structure PingResult where
  avgMs : ℚ
  minMs : ℚ
  maxMs : ℚ
deriving DecidableEq

/-- `ZapZapSpeedTest.testPing`: collect the samples, then
`avg = reduce(+, 0) / length`, `min = Math.min(...)`, `max = Math.max(...)`.
`r` models the `Math.random()` draw of the fallback branch. -/
def zapTestPing (pingSamples : ℕ) (oracle : ℕ → Option ℚ) (r : ℚ) : PingResult :=
  let pingTests := zapPingTests pingSamples oracle (zapPingFallback r)
  { avgMs := jsSum pingTests / (pingTests.length : ℚ)
    minMs := jsMin pingTests
    maxMs := jsMax pingTests }

/-- First successful candidate of one LibreSpeed ping sample: iterate the
candidate endpoints in order, `break` on the first success, `continue` on a
failure (part_001 `testPing` inner `for` loop). -/
def firstSuccess : List (Option ℚ) → Option ℚ
  | [] => none
  | some d :: _ => some d
  | none :: rest => firstSuccess rest

/-- Collected samples of `LibreSpeed.testPing` (part_001): for each of the
`pingSamples` samples, take the first successful candidate duration, or the
synthetic fallback (`50 + Math.random() * 50`, given by `fb`) when every
candidate failed.  `oracle i` lists the candidate outcomes of sample `i`. -/
def lsTestPingSamples (pingSamples : ℕ) (oracle : ℕ → List (Option ℚ)) (fb : ℕ → ℚ) :
    List ℚ :=
  (List.range pingSamples).map fun i =>
    match firstSuccess (oracle i) with
    | some d => d
    | none => fb i

/-! ## IP lookup phase -/

/-- The JSON fields that either `getIP` implementation reads, each possibly
absent.  `none` models an absent (falsy) field. -/
structure IPData where
  ip : Option String
  query : Option String
  ipAddress : Option String
  origin : Option String
  country_code : Option String
  country : Option String
  city : Option String
  org : Option String
  isp : Option String
deriving DecidableEq

/-- Outcome of one candidate request: network error / timeout (the `catch`
path), a response with `ok` false, or an ok response with parsed JSON. -/
inductive FetchOutcome (α : Type) where
  | fail
  | notOk
  | ok (data : α)
deriving DecidableEq

/-- Result object of `ZapZapSpeedTest.getIP`.  `ip` stays an `Option` because
the source has no default for `data.ip || data.query || data.ipAddress`. -/
structure ZapIPInfo where
  ip : Option String
  country : String
deriving DecidableEq

/-- Candidate iteration of `ZapZapSpeedTest.getIP`, also counting how many
candidate requests were issued: stop at the first ok response and parse it;
skip failed and non-2xx candidates. -/
def zapGetIPGo : List (FetchOutcome IPData) → ℕ → Option (ZapIPInfo × ℕ)
  | [], _ => none
  | FetchOutcome.ok d :: _, k =>
    some (⟨d.ip <|> d.query <|> d.ipAddress,
           (d.country_code <|> d.country).getD "Unknown"⟩, k + 1)
  | FetchOutcome.fail :: rest, k => zapGetIPGo rest (k + 1)
  | FetchOutcome.notOk :: rest, k => zapGetIPGo rest (k + 1)

/-- `ZapZapSpeedTest.getIP`: first-success-wins over the candidate list, and on
total failure the synthetic fallback `192.168.<r1>.<r2>` with country `MY`
(`r1`, `r2` model the two `Math.floor(Math.random() * 255)` draws).  Returns
the parsed info together with the number of requests issued. -/
def zapGetIP (outcomes : List (FetchOutcome IPData)) (r1 r2 : ℕ) : ZapIPInfo × ℕ :=
  match zapGetIPGo outcomes 0 with
  | some res => res
  | none =>
    (⟨some ("192.168." ++ toString r1 ++ "." ++ toString r2), "MY"⟩, outcomes.length)

/-- Result object of `LibreSpeed.getIP` (part_001). -/
structure LsIPInfo where
  ip : String
  country : String
  city : String
  isp : String
deriving DecidableEq

/-- `LibreSpeed.getIP` (part_001): first-success-wins with per-field alias
parsing, and the fixed synthetic fallback on total failure. -/
def lsGetIP : List (FetchOutcome IPData) → LsIPInfo
  | [] => ⟨"192.168.1.1", "Unknown", "Unknown", "Simulated"⟩
  | FetchOutcome.ok d :: _ =>
    ⟨(d.ip <|> d.query <|> d.origin).getD "Unknown",
     (d.country <|> d.country_code).getD "Unknown",
     d.city.getD "Unknown",
     (d.org <|> d.isp).getD "Unknown"⟩
  | FetchOutcome.fail :: rest => lsGetIP rest
  | FetchOutcome.notOk :: rest => lsGetIP rest

/-! ## LibreSpeed round byte accounting (part_001) -/

/-- Outcome of one settled transfer attempt within a round: a rejected
promise, a fulfilled response with `ok` false, or an ok response (for
downloads, with an optional `content-length` header). -/
inductive StreamOutcome where
  | rejected
  | notOk
  | ok (contentLength : Option ℕ)
deriving DecidableEq

/-- Whether a settled attempt counts as successful
(`result.status === 'fulfilled' && result.value.res.ok`). -/
def streamOk : StreamOutcome → Bool
  | StreamOutcome.ok _ => true
  | _ => false

/-- Whether the first character list starts the second one. -/
def charsStartWith : List Char → List Char → Bool
  | [], _ => true
  | _ :: _, [] => false
  | a :: as, b :: bs => a == b && charsStartWith as bs

/-- Whether the needle occurs inside the haystack. -/
def containsChars (needle : List Char) : List Char → Bool
  | [] => needle.isEmpty
  | b :: bs => charsStartWith needle (b :: bs) || containsChars needle bs

/-- JavaScript `url.includes(needle)`. -/
def urlHas (needle url : String) : Bool := containsChars needle.toList url.toList

/-- Byte-count estimate from the endpoint URL when `content-length` is absent
(part_001 `testDownload`, lines 182-188). -/
def urlSizeEstimate (url : String) : ℕ :=
  if urlHas "1048576" url then 1048576
  else if urlHas "2097152" url then 2097152
  else if urlHas "5242880" url then 5242880
  else 1048576

/-- Bytes one download attempt adds to `roundBytes`: the declared
`content-length` of an ok response, the URL-derived estimate when the header is
absent, and nothing for a failed or non-2xx attempt. -/
def dlStreamBytes (url : String) : StreamOutcome → ℕ
  | StreamOutcome.rejected => 0
  | StreamOutcome.notOk => 0
  | StreamOutcome.ok (some n) => n
  | StreamOutcome.ok none => urlSizeEstimate url

/-- `roundBytes` accumulation of `LibreSpeed.testDownload`: fold over the
settled results (paired with their endpoint URLs). -/
def lsDlRoundBytes (pairs : List (String × StreamOutcome)) : ℕ :=
  pairs.foldl (fun acc p => acc + dlStreamBytes p.1 p.2) 0

/-- Bytes one upload attempt adds to `roundBytes`: the attempt's payload size
on a fulfilled ok response, nothing otherwise (part_001 `testUpload`). -/
def ulStreamBytes (size : ℕ) : StreamOutcome → ℕ
  | StreamOutcome.ok _ => size
  | StreamOutcome.rejected => 0
  | StreamOutcome.notOk => 0

/-- `roundBytes` accumulation of `LibreSpeed.testUpload`: fold over the
settled results (paired with their payload sizes). -/
def lsUlRoundBytes (pairs : List (ℕ × StreamOutcome)) : ℕ :=
  pairs.foldl (fun acc p => acc + ulStreamBytes p.1 p.2) 0

/-! ## LibreSpeed throughput phases (part_001) -/

/-- One round's record in the part_001 measurement loops:
`{bytes, duration, throughput, timestamp}`.  Times are measured from
`measurementStart`, so the pushed `timestamp` (`roundEnd`) coincides with the
elapsed duration after the round. -/
structure LsMeasurement where
  bytes : ℚ
  duration : ℚ
  throughput : ℚ
  timestamp : ℚ
deriving DecidableEq

/-- The constants a part_001 measurement loop runs with. -/
structure LsTPCfg where
  tolerance : ℚ
  stabilityWindow : ℕ
  roundCap : ℕ
  minTestDuration : ℚ
  maxTestDuration : ℚ
deriving DecidableEq

/-- `LibreSpeed.testDownload` (part_001): 20% tolerance, 3 stable rounds, at
most 20 rounds, 5s minimum, 15s maximum. -/
def lsDownloadCfg : LsTPCfg :=
  { tolerance := 20 / 100
    stabilityWindow := 3
    roundCap := 20
    minTestDuration := 5000
    maxTestDuration := 15000 }

/-- `LibreSpeed.testUpload` (part_001): 25% tolerance, 2 stable rounds, at
most 15 rounds, 3s minimum, 10s maximum. -/
def lsUploadCfg : LsTPCfg :=
  { tolerance := 25 / 100
    stabilityWindow := 2
    roundCap := 15
    minTestDuration := 3000
    maxTestDuration := 10000 }

/-- Mutable state of the part_001 measurement `while` loops. -/
structure LsTPState where
  totalBytes : ℚ
  measurementDuration : ℚ
  measurements : List LsMeasurement
  isStable : Bool
  stableCount : ℕ
  previousThroughput : ℚ
  roundCount : ℕ
deriving DecidableEq

/-- Loop state before the first part_001 round. -/
def lsTPInit : LsTPState :=
  { totalBytes := 0
    measurementDuration := 0
    measurements := []
    isStable := false
    stableCount := 0
    previousThroughput := 0
    roundCount := 0 }

/-- One round of a part_001 measurement loop: `roundBytes` is accumulated from
the settled results, `roundDuration` is the round's wall-clock duration and
`totalAfter` is `roundEnd - measurementStart`; the stability check is
`previousThroughput > 0 && |cur - prev| < prev * tolerance`, resetting the
counter to zero otherwise. -/
def lsTPRound (cfg : LsTPCfg) (st : LsTPState) (roundBytes : ℕ)
    (roundDuration totalAfter : ℚ) : LsTPState :=
  { totalBytes := st.totalBytes + (roundBytes : ℚ)
    measurementDuration := totalAfter
    measurements := st.measurements ++
      [⟨(roundBytes : ℚ), roundDuration,
        lsRoundThroughput (roundBytes : ℚ) roundDuration, totalAfter⟩]
    isStable := st.isStable
    stableCount :=
      if 0 < st.previousThroughput ∧
          |lsRoundThroughput (roundBytes : ℚ) roundDuration - st.previousThroughput| <
            st.previousThroughput * cfg.tolerance then
        st.stableCount + 1
      else 0
    previousThroughput := lsRoundThroughput (roundBytes : ℚ) roundDuration
    roundCount := st.roundCount + 1 }

/-- The `break` of the part_001 loops sets `isStable = true`. -/
def lsSetStable (st : LsTPState) : LsTPState :=
  { st with isStable := true }

/-- The part_001 measurement `while` loop
(`while (measurementDuration < maxTestDuration && roundCount < cap)`), shared
by download and upload: each oracle entry carries the round's settled outcomes
(of type `α`, turned into bytes by `bytesOf`: `lsDlRoundBytes` for download,
`lsUlRoundBytes` for upload) and the round's clock readings. -/
def lsTPLoop (cfg : LsTPCfg) {α : Type} (bytesOf : α → ℕ) :
    LsTPState → List (α × ℚ × ℚ) → LsTPState
  | st, [] => st
  | st, (outs, rd, ta) :: rest =>
    if st.measurementDuration < cfg.maxTestDuration ∧ st.roundCount < cfg.roundCap then
      if cfg.stabilityWindow ≤ (lsTPRound cfg st (bytesOf outs) rd ta).stableCount ∧
          cfg.minTestDuration ≤ (lsTPRound cfg st (bytesOf outs) rd ta).measurementDuration then
        lsSetStable (lsTPRound cfg st (bytesOf outs) rd ta)
      else lsTPLoop cfg bytesOf (lsTPRound cfg st (bytesOf outs) rd ta) rest
    else st

/-- Overall speed of a part_001 phase:
`totalDuration = measurementDuration / 1000` and
`speedMbps = (totalBytes * 8) / (totalDuration * 1000000)`. -/
def lsOverallMbps (bytes durMs : ℚ) : ℚ := bytes * 8 / (durMs / 1000 * 1000000)

/-- The `{ mbps }` object a part_001 throughput phase returns. -/
structure LsMbpsResult where
  mbps : ℚ
deriving DecidableEq

/-- Reported result of a part_001 throughput phase: when at least one round
was recorded, `{ mbps: Math.max(speedMbps, 0.1) }`; otherwise the source
throws `No measurements recorded`, entering the ping-based simulated fallback
chain — modelled as `none` and unreachable whenever the clock oracle is
non-empty, since the loop then always records a first round. -/
def lsReportedMbps (cfg : LsTPCfg) {α : Type} (bytesOf : α → ℕ)
    (oracle : List (α × ℚ × ℚ)) : Option LsMbpsResult :=
  if 0 < (lsTPLoop cfg bytesOf lsTPInit oracle).measurements.length then
    some ⟨max (lsOverallMbps (lsTPLoop cfg bytesOf lsTPInit oracle).totalBytes
      (lsTPLoop cfg bytesOf lsTPInit oracle).measurementDuration) (1 / 10)⟩
  else none

/-- `LibreSpeed.testDownload` (part_001) on its main, real-measurement path. -/
def lsTestDownload (oracle : List (List (String × StreamOutcome) × ℚ × ℚ)) :
    Option LsMbpsResult :=
  lsReportedMbps lsDownloadCfg lsDlRoundBytes oracle

/-- `LibreSpeed.testUpload` (part_001) on its main, real-measurement path. -/
def lsTestUpload (oracle : List (List (ℕ × StreamOutcome) × ℚ × ℚ)) :
    Option LsMbpsResult :=
  lsReportedMbps lsUploadCfg lsUlRoundBytes oracle

/-- Result object of `LibreSpeed.testPing` (part_001): `{avgMs, samples}`. -/
structure LsPingResult where
  avgMs : ℚ
  samples : List ℚ
deriving DecidableEq

/-- `LibreSpeed.testPing` (part_001): collect the samples, then
`avg = samples.reduce((a, b) => a + b, 0) / samples.length`. -/
def lsTestPing (pingSamples : ℕ) (oracle : ℕ → List (Option ℚ)) (fb : ℕ → ℚ) :
    LsPingResult :=
  { avgMs := jsSum (lsTestPingSamples pingSamples oracle fb) /
      ((lsTestPingSamples pingSamples oracle fb).length : ℚ)
    samples := lsTestPingSamples pingSamples oracle fb }

/-! ## Top-level run (zap.js) -/

/-- The final report object assembled by `ZapZapSpeedTest.run`. -/
structure SessionReport where
  ip : ZapIPInfo
  ping : PingResult
  download : TPResult
  upload : TPResult
  timestamp : String

/-- All oracle inputs one `run()` consumes: the network outcomes of the IP and
ping candidates, the `Math.random()` draws, the clocks of both throughput
loops, and the completion timestamp. -/
structure RunEnv where
  ipOutcomes : List (FetchOutcome IPData)
  ipR1 : ℕ
  ipR2 : ℕ
  pingOracle : ℕ → Option ℚ
  pingR : ℚ
  dlOracle : List (ℚ × ℚ)
  ulOracle : List (ℚ × ℚ)
  timestamp : String

/-- `ZapZapSpeedTest.run`: the four phases strictly in order, assembled into
the report.  Every phase is a total function, so `run` never throws. -/
def zapRun (env : RunEnv) : SessionReport :=
  { ip := (zapGetIP env.ipOutcomes env.ipR1 env.ipR2).1
    ping := zapTestPing 5 env.pingOracle env.pingR
    download := tpResult zapDownloadCfg env.dlOracle
    upload := tpResult zapUploadCfg env.ulOracle
    timestamp := env.timestamp }

/-! ## Top-level run (part_001) -/

/-- The final report object assembled by `LibreSpeed.run` (part_001). -/
structure LsSessionReport where
  ip : LsIPInfo
  ping : LsPingResult
  download : LsMbpsResult
  upload : LsMbpsResult
  timestamp : String

/-- All oracle inputs one `LibreSpeed.run` consumes: the network outcomes of
the IP candidates, the per-sample candidate outcomes and fallback draws of the
ping phase (`fb i` models `50 + Math.random() * 50`), the per-round settled
outcomes and clocks of both throughput loops, and the completion timestamp. -/
structure LsRunEnv where
  ipOutcomes : List (FetchOutcome IPData)
  pingOracle : ℕ → List (Option ℚ)
  pingFb : ℕ → ℚ
  dlOracle : List (List (String × StreamOutcome) × ℚ × ℚ)
  ulOracle : List (List (ℕ × StreamOutcome) × ℚ × ℚ)
  timestamp : String

/-- `LibreSpeed.run` (part_001): the four phases strictly in order (the
progress callback produces no data).  `none` marks an execution whose
throughput phase would continue into the unmodelled ping-based simulated
fallback chain; this requires a throughput loop with zero recorded rounds,
which no non-empty clock oracle produces. -/
def lsRun (env : LsRunEnv) : Option LsSessionReport :=
  match lsTestDownload env.dlOracle, lsTestUpload env.ulOracle with
  | some dl, some ul =>
    some { ip := lsGetIP env.ipOutcomes
           ping := lsTestPing 3 env.pingOracle env.pingFb
           download := dl
           upload := ul
           timestamp := env.timestamp }
  | _, _ => none

/-! ## Concrete witness inputs -/

/-- The parsed JSON of the first-candidate success scenario:
`{ "ip": "203.0.113.5", "country_code": "SG" }`. -/
def ipDataSG : IPData :=
  { ip := some "203.0.113.5"
    query := none
    ipAddress := none
    origin := none
    country_code := some "SG"
    country := none
    city := none
    org := none
    isp := none }

/-- A clock oracle under which the download loop stabilizes: four equal-length
rounds, with minimum test duration reached at round 4. -/
def stableOracle : List (ℚ × ℚ) := [(1000, 500), (1000, 1000), (1000, 1500), (1000, 3500)]

/-- A run environment in which every candidate network request fails. -/
def allFailEnv : RunEnv :=
  { ipOutcomes := [FetchOutcome.fail, FetchOutcome.fail, FetchOutcome.fail, FetchOutcome.fail]
    ipR1 := 7
    ipR2 := 9
    pingOracle := fun _ => none
    pingR := 1 / 2
    dlOracle := [(1000, 1000)]
    ulOracle := [(800, 900)]
    timestamp := "2024-01-01T00:00:00.000Z" }

/-- A part_001 run environment in which every candidate network request
fails: all five IP candidates error out, every candidate of every ping sample
errors out, and every transfer attempt of every round rejects. -/
def lsAllFailEnv : LsRunEnv :=
  { ipOutcomes := [FetchOutcome.fail, FetchOutcome.fail, FetchOutcome.fail,
      FetchOutcome.fail, FetchOutcome.fail]
    pingOracle := fun _ => [none, none, none, none, none, none]
    pingFb := fun _ => 75
    dlOracle := [([("https://httpbin.org/bytes/1048576", StreamOutcome.rejected),
      ("https://httpbin.org/bytes/2097152", StreamOutcome.rejected)], 1000, 1000)]
    ulOracle := [([(262144, StreamOutcome.rejected), (524288, StreamOutcome.rejected)],
      800, 900)]
    timestamp := "2024-01-01T00:00:00.000Z" }

/-- A one-round part_001 download clock whose only transfer attempt rejects,
leaving the computed overall speed at 0 Mbps — inside the clamped regime. -/
def lsClampOracle : List (List (String × StreamOutcome) × ℚ × ℚ) :=
  [([("https://httpbin.org/bytes/1048576", StreamOutcome.rejected)], 1000, 1000)]

/-- Ten rounds with distinct throughputs, in scrambled order. -/
def tenMeasurements : List Measurement :=
  [⟨1, 1, 10⟩, ⟨1, 1, 3⟩, ⟨1, 1, 7⟩, ⟨1, 1, 1⟩, ⟨1, 1, 9⟩,
   ⟨1, 1, 5⟩, ⟨1, 1, 2⟩, ⟨1, 1, 8⟩, ⟨1, 1, 4⟩, ⟨1, 1, 6⟩]

/-! ## Helper lemmas -/

theorem foldl_add_eq (l : List ℚ) (a : ℚ) : l.foldl (· + ·) a = a + l.sum := by
  induction l generalizing a with
  | nil => simp
  | cons x xs ih => simp [ih]; ring

theorem foldl_add_map_eq {α : Type} (f : α → ℚ) (l : List α) (a : ℚ) :
    l.foldl (fun s m => s + f m) a = a + (l.map f).sum := by
  induction l generalizing a with
  | nil => simp
  | cons x xs ih => simp [ih]; ring

theorem foldl_add_map_eq_nat {α : Type} (f : α → ℕ) (l : List α) (a : ℕ) :
    l.foldl (fun s m => s + f m) a = a + (l.map f).sum := by
  induction l generalizing a with
  | nil => simp
  | cons x xs ih => simp [ih]; omega

theorem foldl_min_mem (x : ℚ) (xs : List ℚ) : xs.foldl min x ∈ x :: xs := by
  induction xs generalizing x with
  | nil => simp
  | cons a l ih =>
    show l.foldl min (min x a) ∈ x :: a :: l
    rcases List.mem_cons.1 (ih (min x a)) with h1 | h1
    · rw [h1]
      rcases min_choice x a with hc | hc <;> simp [hc]
    · simp [h1]

theorem foldl_min_le (x : ℚ) (xs : List ℚ) : ∀ y ∈ x :: xs, xs.foldl min x ≤ y := by
  induction xs generalizing x with
  | nil => intro y hy; simp at hy; simp [hy]
  | cons a l ih =>
    intro y hy
    have hbase : l.foldl min (min x a) ≤ min x a := ih (min x a) (min x a) (by simp)
    rcases List.mem_cons.1 hy with h1 | h1
    · exact le_trans hbase (by rw [h1]; exact min_le_left x a)
    · rcases List.mem_cons.1 h1 with h2 | h2
      · exact le_trans hbase (by rw [h2]; exact min_le_right x a)
      · exact ih (min x a) y (by simp [h2])

theorem foldl_max_mem (x : ℚ) (xs : List ℚ) : xs.foldl max x ∈ x :: xs := by
  induction xs generalizing x with
  | nil => simp
  | cons a l ih =>
    show l.foldl max (max x a) ∈ x :: a :: l
    rcases List.mem_cons.1 (ih (max x a)) with h1 | h1
    · rw [h1]
      rcases max_choice x a with hc | hc <;> simp [hc]
    · simp [h1]

theorem foldl_max_ge (x : ℚ) (xs : List ℚ) : ∀ y ∈ x :: xs, y ≤ xs.foldl max x := by
  induction xs generalizing x with
  | nil => intro y hy; simp at hy; simp [hy]
  | cons a l ih =>
    intro y hy
    have hbase : max x a ≤ l.foldl max (max x a) := ih (max x a) (max x a) (by simp)
    rcases List.mem_cons.1 hy with h1 | h1
    · exact le_trans (by rw [h1]; exact le_max_left x a) hbase
    · rcases List.mem_cons.1 h1 with h2 | h2
      · exact le_trans (by rw [h2]; exact le_max_right x a) hbase
      · exact ih (max x a) y (by simp [h2])

theorem length_insertSorted (m : Measurement) (l : List Measurement) :
    (insertSorted m l).length = l.length + 1 := by
  induction l with
  | nil => rfl
  | cons x xs ih =>
    by_cases h : m.throughput ≤ x.throughput <;> simp [insertSorted, h, ih]

theorem length_sortByThroughput (l : List Measurement) :
    (sortByThroughput l).length = l.length := by
  induction l with
  | nil => rfl
  | cons x xs ih => simp [sortByThroughput, length_insertSorted, ih]

theorem mem_insertSorted (a m : Measurement) (l : List Measurement) :
    a ∈ insertSorted m l ↔ a = m ∨ a ∈ l := by
  induction l with
  | nil => simp [insertSorted]
  | cons x xs ih =>
    by_cases h : m.throughput ≤ x.throughput
    · simp [insertSorted, h]
    · simp [insertSorted, h, ih]
      tauto

theorem insertSorted_sorted (m : Measurement) (l : List Measurement)
    (h : l.Sorted (fun a b => a.throughput ≤ b.throughput)) :
    (insertSorted m l).Sorted (fun a b => a.throughput ≤ b.throughput) := by
  induction l with
  | nil => simp [insertSorted]
  | cons x xs ih =>
    rw [List.sorted_cons] at h
    by_cases hle : m.throughput ≤ x.throughput
    · rw [insertSorted, if_pos hle]
      refine List.sorted_cons.2 ⟨?_, List.sorted_cons.2 h⟩
      intro b hb
      rcases List.mem_cons.1 hb with hb1 | hb1
      · rw [hb1]; exact hle
      · exact le_trans hle (h.1 b hb1)
    · rw [insertSorted, if_neg hle]
      refine List.sorted_cons.2 ⟨?_, ih h.2⟩
      intro b hb
      rcases (mem_insertSorted b m xs).1 hb with hb1 | hb1
      · rw [hb1]; exact le_of_not_le hle
      · exact h.1 b hb1

theorem sortByThroughput_sorted (l : List Measurement) :
    (sortByThroughput l).Sorted (fun a b => a.throughput ≤ b.throughput) := by
  induction l with
  | nil => simp [sortByThroughput]
  | cons x xs ih => exact insertSorted_sorted x (sortByThroughput xs) ih

theorem insertSorted_perm (m : Measurement) (l : List Measurement) :
    (insertSorted m l).Perm (m :: l) := by
  induction l with
  | nil => exact List.Perm.refl _
  | cons x xs ih =>
    by_cases h : m.throughput ≤ x.throughput
    · rw [insertSorted, if_pos h]
    · rw [insertSorted, if_neg h]
      exact List.Perm.trans (List.Perm.cons x ih) (List.Perm.swap m x xs)

theorem sortByThroughput_perm (l : List Measurement) :
    (sortByThroughput l).Perm l := by
  induction l with
  | nil => exact List.Perm.refl _
  | cons x xs ih =>
    exact List.Perm.trans (insertSorted_perm x (sortByThroughput xs)) (List.Perm.cons x ih)

/-! ## Measurement-loop lemmas -/

theorem tpRound_totalBytes (cfg : ThroughputCfg) (st : TPState) (rt ta : ℚ) :
    (tpRound cfg st rt ta).totalBytes = st.totalBytes + tpRoundBytes cfg := rfl

theorem tpRound_totalTime (cfg : ThroughputCfg) (st : TPState) (rt ta : ℚ) :
    (tpRound cfg st rt ta).totalTime = ta := rfl

theorem tpRound_roundCount (cfg : ThroughputCfg) (st : TPState) (rt ta : ℚ) :
    (tpRound cfg st rt ta).roundCount = st.roundCount + 1 := rfl

theorem tpRound_isStable (cfg : ThroughputCfg) (st : TPState) (rt ta : ℚ) :
    (tpRound cfg st rt ta).isStable = st.isStable := rfl

theorem tpRound_stableCount (cfg : ThroughputCfg) (st : TPState) (rt ta : ℚ) :
    (tpRound cfg st rt ta).stableCount =
      if 0 < st.previousThroughput then
        if |roundThroughput (tpRoundBytes cfg) rt - st.previousThroughput| /
            st.previousThroughput < cfg.tolerance then st.stableCount + 1
        else 0
      else st.stableCount := rfl

theorem tpRound_stableCount_cases (cfg : ThroughputCfg) (st : TPState) (rt ta : ℚ) :
    (tpRound cfg st rt ta).stableCount = 0 ∨
    ((tpRound cfg st rt ta).stableCount = st.stableCount ∧
      ¬ 0 < st.previousThroughput) ∨
    ((tpRound cfg st rt ta).stableCount = st.stableCount + 1 ∧
      0 < st.previousThroughput) := by
  rw [tpRound_stableCount]
  by_cases h1 : 0 < st.previousThroughput
  · by_cases h2 : |roundThroughput (tpRoundBytes cfg) rt - st.previousThroughput| /
        st.previousThroughput < cfg.tolerance
    · simp [h1, h2]
    · simp [h1, h2]
  · simp [h1]

theorem setStable_roundCount (st : TPState) : (setStable st).roundCount = st.roundCount := rfl

theorem setStable_stableCount (st : TPState) :
    (setStable st).stableCount = st.stableCount := rfl

theorem setStable_previousThroughput (st : TPState) :
    (setStable st).previousThroughput = st.previousThroughput := rfl

theorem setStable_totalBytes (st : TPState) : (setStable st).totalBytes = st.totalBytes := rfl

theorem setStable_totalTime (st : TPState) : (setStable st).totalTime = st.totalTime := rfl

/-- The counter/round bookkeeping invariant behind the stability rule: the
consecutive-stable counter can only start growing from round 2 on, and a state
marked stable has seen at least `window + 1` rounds. -/
def StableInv (w : ℕ) (st : TPState) : Prop :=
  (0 < st.previousThroughput → 1 ≤ st.roundCount) ∧
  (st.stableCount ≠ 0 → st.stableCount + 1 ≤ st.roundCount) ∧
  (st.isStable = true → w + 1 ≤ st.roundCount)

theorem stableInv_tpRound (w : ℕ) (cfg : ThroughputCfg) (st : TPState) (rt ta : ℚ)
    (h : StableInv w st) : StableInv w (tpRound cfg st rt ta) := by
  obtain ⟨h1, h2, h3⟩ := h
  have hrc := tpRound_roundCount cfg st rt ta
  have hst := tpRound_isStable cfg st rt ta
  refine ⟨fun _ => by omega, ?_, fun hs => ?_⟩
  · rcases tpRound_stableCount_cases cfg st rt ta with h0 | ⟨he, _⟩ | ⟨he, hp⟩
    · omega
    · intro hne
      rw [he] at hne ⊢
      have := h2 hne
      omega
    · intro _
      rw [he]
      have hr1 := h1 hp
      rcases Nat.eq_zero_or_pos st.stableCount with hz | hpos
      · omega
      · have := h2 (Nat.pos_iff_ne_zero.1 hpos)
        omega
  · rw [hst] at hs
    have := h3 hs
    omega

theorem tpLoop_stableInv (cfg : ThroughputCfg) (o : List (ℚ × ℚ)) :
    ∀ st : TPState, StableInv cfg.stabilityWindow st →
      StableInv cfg.stabilityWindow (tpLoop cfg st o) := by
  induction o with
  | nil => intro st h; exact h
  | cons p rest ih =>
    obtain ⟨rt, ta⟩ := p
    intro st h
    rw [tpLoop]
    split
    · have h1 : StableInv cfg.stabilityWindow (tpRound cfg st rt ta) :=
        stableInv_tpRound cfg.stabilityWindow cfg st rt ta h
      split
    
      · rename_i hbrk
        obtain ⟨i1, i2, _⟩ := h1
        refine ⟨?_, ?_, fun _ => ?_⟩
        · rw [setStable_previousThroughput, setStable_roundCount]
          exact i1
        · rw [setStable_stableCount, setStable_roundCount]
          exact i2
        · rw [setStable_roundCount]
          rcases Nat.eq_zero_or_pos cfg.stabilityWindow with hw | hw
          · have := tpRound_roundCount cfg st rt ta
            omega
          · have hne : (tpRound cfg st rt ta).stableCount ≠ 0 := by
              have := hbrk.1
              omega
            have := i2 hne
            have := hbrk.1
            omega
      · exact ih _ h1
    · exact h

theorem stableInv_tpInit (w : ℕ) : StableInv w tpInit := by
  refine ⟨?_, ?_, ?_⟩ <;> intro h <;> simp [tpInit] at h

/-- Positivity bookkeeping for the overall Mbps: byte and time totals are
positive once at least one round has run. -/
def PosInv (st : TPState) : Prop :=
  0 ≤ st.totalBytes ∧ (1 ≤ st.roundCount → 0 < st.totalBytes ∧ 0 < st.totalTime)

theorem posInv_tpRound (cfg : ThroughputCfg) (hrb : 0 < tpRoundBytes cfg) (st : TPState)
    (rt ta : ℚ) (hta : 0 < ta) (h : PosInv st) : PosInv (tpRound cfg st rt ta) := by
  refine ⟨?_, fun _ => ⟨?_, ?_⟩⟩
  · rw [tpRound_totalBytes]
    exact add_nonneg h.1 hrb.le
  · rw [tpRound_totalBytes]
    exact add_pos_of_nonneg_of_pos h.1 hrb
  · rw [tpRound_totalTime]
    exact hta

theorem tpLoop_posInv (cfg : ThroughputCfg) (hrb : 0 < tpRoundBytes cfg)
    (o : List (ℚ × ℚ)) :
    ∀ st : TPState, (∀ p ∈ o, 0 < p.2) → PosInv st → PosInv (tpLoop cfg st o) := by
  induction o with
  | nil => intro st _ h; exact h
  | cons p rest ih =>
    obtain ⟨rt, ta⟩ := p
    intro st ho h
    rw [tpLoop]
    split
    · have h1 : PosInv (tpRound cfg st rt ta) :=
        posInv_tpRound cfg hrb st rt ta (ho (rt, ta) (List.mem_cons_self _ _)) h
      split
      · refine ⟨?_, fun hr => ?_⟩
        · rw [setStable_totalBytes]
          exact h1.1
        · rw [setStable_totalBytes, setStable_totalTime]
          exact h1.2 (by rw [setStable_roundCount] at hr; exact hr)
      · exact ih _ (fun q hq => ho q (List.mem_cons_of_mem _ hq)) h1
    · exact h

theorem tpLoop_roundCount_le (cfg : ThroughputCfg) (o : List (ℚ × ℚ)) :
    ∀ st : TPState, st.roundCount ≤ (tpLoop cfg st o).roundCount := by
  induction o with
  | nil => intro st; exact le_refl _
  | cons p rest ih =>
    obtain ⟨rt, ta⟩ := p
    intro st
    rw [tpLoop]
    split
    · split
      · rw [setStable_roundCount, tpRound_roundCount]
        omega
      · have h1 := ih (tpRound cfg st rt ta)
        rw [tpRound_roundCount] at h1
        omega
    · exact le_refl _

theorem tpLoop_first_round (cfg : ThroughputCfg) (hmax : 0 < cfg.maxTestDuration)
    (hcap : 0 < cfg.roundCap) (rt ta : ℚ) (rest : List (ℚ × ℚ)) :
    1 ≤ (tpLoop cfg tpInit ((rt, ta) :: rest)).roundCount := by
  rw [tpLoop]
  split
  · split
    · rw [setStable_roundCount, tpRound_roundCount]
      omega
    · have h1 := tpLoop_roundCount_le cfg rest (tpRound cfg tpInit rt ta)
      rw [tpRound_roundCount] at h1
      omega
  · rename_i hc
    exact absurd ⟨hmax, hcap, rfl⟩ hc

theorem tpResult_mbps_pos (cfg : ThroughputCfg) (hrb : 0 < tpRoundBytes cfg)
    (hmax : 0 < cfg.maxTestDuration) (hcap : 0 < cfg.roundCap)
    (oracle : List (ℚ × ℚ)) (hne : oracle ≠ []) (ho : ∀ p ∈ oracle, 0 < p.2) :
    0 < (tpResult cfg oracle).mbps := by
  obtain ⟨⟨rt, ta⟩, rest, rfl⟩ : ∃ p rest, oracle = p :: rest := by
    cases oracle with
    | nil => exact absurd rfl hne
    | cons p rest => exact ⟨p, rest, rfl⟩
  have hrc : 1 ≤ (tpLoop cfg tpInit ((rt, ta) :: rest)).roundCount :=
    tpLoop_first_round cfg hmax hcap rt ta rest
  have hP : PosInv (tpLoop cfg tpInit ((rt, ta) :: rest)) := by
    refine tpLoop_posInv cfg hrb _ tpInit ho ⟨le_refl 0, fun h => ?_⟩
    simp [tpInit] at h
  obtain ⟨htb, htt⟩ := hP.2 hrc
  show 0 < (tpLoop cfg tpInit ((rt, ta) :: rest)).totalBytes * 8 /
      ((tpLoop cfg tpInit ((rt, ta) :: rest)).totalTime * 1000)
  exact div_pos (by linarith) (by linarith)

/-! ## LibreSpeed measurement-loop lemmas -/

theorem lsTPRound_totalBytes (cfg : LsTPCfg) (st : LsTPState) (rb : ℕ) (rd ta : ℚ) :
    (lsTPRound cfg st rb rd ta).totalBytes = st.totalBytes + (rb : ℚ) := rfl

theorem lsTPRound_measurements (cfg : LsTPCfg) (st : LsTPState) (rb : ℕ) (rd ta : ℚ) :
    (lsTPRound cfg st rb rd ta).measurements =
      st.measurements ++
        [⟨(rb : ℚ), rd, lsRoundThroughput (rb : ℚ) rd, ta⟩] := rfl

theorem lsSetStable_totalBytes (st : LsTPState) :
    (lsSetStable st).totalBytes = st.totalBytes := rfl

theorem lsSetStable_measurements (st : LsTPState) :
    (lsSetStable st).measurements = st.measurements := rfl

theorem lsTPLoop_totalBytes_zero (cfg : LsTPCfg) {α : Type} (bytesOf : α → ℕ)
    (o : List (α × ℚ × ℚ)) :
    ∀ st : LsTPState, (∀ r ∈ o, bytesOf r.1 = 0) → st.totalBytes = 0 →
      (lsTPLoop cfg bytesOf st o).totalBytes = 0 := by
  induction o with
  | nil => intro st _ h; exact h
  | cons p rest ih =>
    obtain ⟨outs, rd, ta⟩ := p
    intro st ho h
    have hb : (lsTPRound cfg st (bytesOf outs) rd ta).totalBytes = 0 := by
      rw [lsTPRound_totalBytes, ho (outs, rd, ta) (List.mem_cons_self _ _), h]
      norm_num
    rw [lsTPLoop]
    split
    · split
      · rw [lsSetStable_totalBytes]
        exact hb
      · exact ih _ (fun q hq => ho q (List.mem_cons_of_mem _ hq)) hb
    · exact h

theorem lsTPLoop_measurements_le (cfg : LsTPCfg) {α : Type} (bytesOf : α → ℕ)
    (o : List (α × ℚ × ℚ)) :
    ∀ st : LsTPState,
      st.measurements.length ≤ (lsTPLoop cfg bytesOf st o).measurements.length := by
  induction o with
  | nil => intro st; exact le_refl _
  | cons p rest ih =>
    obtain ⟨outs, rd, ta⟩ := p
    intro st
    rw [lsTPLoop]
    split
    · split
      · rw [lsSetStable_measurements, lsTPRound_measurements]
        simp
      · refine le_trans ?_ (ih (lsTPRound cfg st (bytesOf outs) rd ta))
        rw [lsTPRound_measurements]
        simp
    · exact le_refl _

theorem lsTPLoop_first_round (cfg : LsTPCfg) (hmax : 0 < cfg.maxTestDuration)
    (hcap : 0 < cfg.roundCap) {α : Type} (bytesOf : α → ℕ) (r : α × ℚ × ℚ)
    (rest : List (α × ℚ × ℚ)) :
    0 < (lsTPLoop cfg bytesOf lsTPInit (r :: rest)).measurements.length := by
  obtain ⟨outs, rd, ta⟩ := r
  rw [lsTPLoop]
  split
  · split
    · rw [lsSetStable_measurements, lsTPRound_measurements]
      simp
    · refine lt_of_lt_of_le ?_ (lsTPLoop_measurements_le cfg bytesOf rest _)
      rw [lsTPRound_measurements]
      simp
  · rename_i hc
    exact absurd ⟨hmax, hcap⟩ hc

theorem lsDlRoundBytes_all_rejected (pairs : List (String × StreamOutcome))
    (h : ∀ p ∈ pairs, p.2 = StreamOutcome.rejected) : lsDlRoundBytes pairs = 0 := by
  rw [lsDlRoundBytes, foldl_add_map_eq_nat (fun p => dlStreamBytes p.1 p.2) pairs 0,
    Nat.zero_add]
  apply List.sum_eq_zero
  intro x hx
  rw [List.mem_map] at hx
  obtain ⟨p, hp, rfl⟩ := hx
  rw [h p hp]
  rfl

theorem lsUlRoundBytes_all_rejected (pairs : List (ℕ × StreamOutcome))
    (h : ∀ p ∈ pairs, p.2 = StreamOutcome.rejected) : lsUlRoundBytes pairs = 0 := by
  rw [lsUlRoundBytes, foldl_add_map_eq_nat (fun p => ulStreamBytes p.1 p.2) pairs 0,
    Nat.zero_add]
  apply List.sum_eq_zero
  intro x hx
  rw [List.mem_map] at hx
  obtain ⟨p, hp, rfl⟩ := hx
  rw [h p hp]
  rfl

/-- Under all-zero round bytes the reported part_001 result is exactly the
clamp value `0.1`: the loop records a first round, the overall speed computes
to 0 and `Math.max(0, 0.1) = 0.1`. -/
theorem lsReportedMbps_all_zero (cfg : LsTPCfg) (hmax : 0 < cfg.maxTestDuration)
    (hcap : 0 < cfg.roundCap) {α : Type} (bytesOf : α → ℕ)
    (oracle : List (α × ℚ × ℚ)) (hne : oracle ≠ [])
    (ho : ∀ r ∈ oracle, bytesOf r.1 = 0) :
    lsReportedMbps cfg bytesOf oracle = some ⟨1 / 10⟩ := by
  obtain ⟨r, rest, rfl⟩ : ∃ r rest, oracle = r :: rest := by
    cases oracle with
    | nil => exact absurd rfl hne
    | cons r rest => exact ⟨r, rest, rfl⟩
  have hlen : 0 < (lsTPLoop cfg bytesOf lsTPInit (r :: rest)).measurements.length :=
    lsTPLoop_first_round cfg hmax hcap bytesOf r rest
  have hb : (lsTPLoop cfg bytesOf lsTPInit (r :: rest)).totalBytes = 0 :=
    lsTPLoop_totalBytes_zero cfg bytesOf (r :: rest) lsTPInit ho rfl
  rw [lsReportedMbps, if_pos hlen, hb]
  have h0 : lsOverallMbps 0
      (lsTPLoop cfg bytesOf lsTPInit (r :: rest)).measurementDuration = 0 := by
    simp [lsOverallMbps]
  rw [h0, max_eq_right (by norm_num : (0 : ℚ) ≤ 1 / 10)]

theorem firstSuccess_none (l : List (Option ℚ)) (h : ∀ c ∈ l, c = none) :
    firstSuccess l = none := by
  induction l with
  | nil => rfl
  | cons c rest ih =>
    cases c with
    | none => exact ih fun c hc => h c (List.mem_cons_of_mem _ hc)
    | some d => exact absurd (h _ (List.mem_cons_self _ _)) (by simp)

theorem lsTestPingSamples_all_fail (n : ℕ) (oracle : ℕ → List (Option ℚ)) (fb : ℕ → ℚ)
    (h : ∀ i, ∀ c ∈ oracle i, c = none) :
    lsTestPingSamples n oracle fb = (List.range n).map fb := by
  rw [lsTestPingSamples]
  apply List.map_congr_left
  intro i _
  rw [firstSuccess_none (oracle i) (h i)]

theorem lsTestPing_all_fail (oracle : ℕ → List (Option ℚ)) (fb : ℕ → ℚ)
    (h : ∀ i, ∀ c ∈ oracle i, c = none) (hfb : ∀ i, 50 ≤ fb i ∧ fb i < 100) :
    (lsTestPing 3 oracle fb).samples.length = 3 ∧
    50 ≤ (lsTestPing 3 oracle fb).avgMs ∧ (lsTestPing 3 oracle fb).avgMs < 100 := by
  have hs : lsTestPingSamples 3 oracle fb = [fb 0, fb 1, fb 2] := by
    rw [lsTestPingSamples_all_fail 3 oracle fb h]
    rfl
  have hlen : (lsTestPing 3 oracle fb).samples.length = 3 := by
    show (lsTestPingSamples 3 oracle fb).length = 3
    rw [hs]
    rfl
  have havg : (lsTestPing 3 oracle fb).avgMs = (fb 0 + fb 1 + fb 2) / 3 := by
    show jsSum (lsTestPingSamples 3 oracle fb) /
        ((lsTestPingSamples 3 oracle fb).length : ℚ) = _
    rw [hs]
    simp [jsSum]
  obtain ⟨h00, h01⟩ := hfb 0
  obtain ⟨h10, h11⟩ := hfb 1
  obtain ⟨h20, h21⟩ := hfb 2
  refine ⟨hlen, ?_, ?_⟩ <;> rw [havg] <;> linarith

/-! ## Phase-level helper lemmas -/

theorem zapGetIPGo_none (outs : List (FetchOutcome IPData))
    (h : ∀ o ∈ outs, o = FetchOutcome.fail ∨ o = FetchOutcome.notOk) :
    ∀ k : ℕ, zapGetIPGo outs k = none := by
  induction outs with
  | nil => intro k; rfl
  | cons o rest ih =>
    intro k
    have hrest : ∀ o ∈ rest, o = FetchOutcome.fail ∨ o = FetchOutcome.notOk :=
      fun o ho => h o (List.mem_cons_of_mem _ ho)
    rcases h o (List.mem_cons_self _ _) with ho | ho <;> rw [ho]
    · exact ih hrest (k + 1)
    · exact ih hrest (k + 1)

theorem zapGetIP_fallback (outs : List (FetchOutcome IPData)) (r1 r2 : ℕ)
    (h : ∀ o ∈ outs, o = FetchOutcome.fail ∨ o = FetchOutcome.notOk) :
    zapGetIP outs r1 r2 =
      (⟨some ("192.168." ++ toString r1 ++ "." ++ toString r2), "MY"⟩, outs.length) := by
  rw [zapGetIP, zapGetIPGo_none outs h 0]

theorem lsGetIP_fallback (outs : List (FetchOutcome IPData))
    (h : ∀ o ∈ outs, o = FetchOutcome.fail ∨ o = FetchOutcome.notOk) :
    lsGetIP outs = ⟨"192.168.1.1", "Unknown", "Unknown", "Simulated"⟩ := by
  induction outs with
  | nil => rfl
  | cons o rest ih =>
    have hrest : ∀ o ∈ rest, o = FetchOutcome.fail ∨ o = FetchOutcome.notOk :=
      fun o ho => h o (List.mem_cons_of_mem _ ho)
    rcases h o (List.mem_cons_self _ _) with ho | ho <;> rw [ho]
    · exact ih hrest
    · exact ih hrest

theorem zapPingTests_all_fail (n : ℕ) (oracle : ℕ → Option ℚ) (fb : ℚ)
    (h : ∀ i, oracle i = none) : zapPingTests n oracle fb = [fb] := by
  rw [zapPingTests]
  have he : (List.range n).filterMap oracle = [] :=
    List.filterMap_eq_nil_iff.2 fun a _ => h a
  rw [he]
  rfl

theorem zapPingTests_ne_nil (n : ℕ) (oracle : ℕ → Option ℚ) (fb : ℚ) :
    zapPingTests n oracle fb ≠ [] := by
  rw [zapPingTests]
  split
  · simp
  · rename_i h
    exact fun hc => h (by rw [hc]; rfl)

theorem zapTestPing_avg_all_fail (n : ℕ) (oracle : ℕ → Option ℚ) (r : ℚ)
    (h : ∀ i, oracle i = none) :
    (zapTestPing n oracle r).avgMs = zapPingFallback r := by
  show jsSum (zapPingTests n oracle (zapPingFallback r)) /
      ((zapPingTests n oracle (zapPingFallback r)).length : ℚ) = zapPingFallback r
  rw [zapPingTests_all_fail n oracle (zapPingFallback r) h]
  simp [jsSum]

theorem mbps_ms_eq_decimal (b t : ℚ) : b * 8 / (t * 1000) = b * 8 / (t / 1000) / 1000000 := by
  rw [div_div]
  have h : t / 1000 * 1000000 = t * 1000 := by ring
  rw [h]

/-! ## Claim theorems -/

/-- Claim C2 (amended): the zap.js throughput phases report overall Mbps
exactly as bytes × 8 / elapsed-seconds / 10⁶; the part_001 round loops compute
per-round and overall throughput by the same decimal formula but report
`Math.max(computed, 0.1)`, which coincides with the decimal value exactly when
that value is at least 0.1 Mbps; a round of 1,000,000 bytes in exactly 100 ms
rates 80 Mbps under all these formulas.  The part_003 variant is excluded (see
the counterexample). -/
theorem throughput_formula_decimal :
    (∀ b t : ℚ, roundThroughput b t = b * 8 / (t / 1000) / 1000000) ∧
    (∀ (cfg : ThroughputCfg) (oracle : List (ℚ × ℚ)),
      (tpResult cfg oracle).mbps =
        (tpLoop cfg tpInit oracle).totalBytes * 8 /
          ((tpLoop cfg tpInit oracle).totalTime / 1000) / 1000000) ∧
    (∀ b t : ℚ, lsOverallMbps b t = b * 8 / (t / 1000) / 1000000) ∧
    (∀ (cfg : LsTPCfg) (α : Type) (bytesOf : α → ℕ) (oracle : List (α × ℚ × ℚ)),
      0 < (lsTPLoop cfg bytesOf lsTPInit oracle).measurements.length →
        lsReportedMbps cfg bytesOf oracle =
          some ⟨max (lsOverallMbps (lsTPLoop cfg bytesOf lsTPInit oracle).totalBytes
            (lsTPLoop cfg bytesOf lsTPInit oracle).measurementDuration) (1 / 10)⟩) ∧
    (∀ x : ℚ, 1 / 10 ≤ x → max x (1 / 10) = x) ∧
    roundThroughput 1000000 100 = 80 ∧
    lsRoundThroughput 1000000 100 = 80 ∧
    lsOverallMbps 1000000 100 = 80 := by
  refine ⟨fun b t => mbps_ms_eq_decimal b t, fun cfg oracle => ?_, fun b t => ?_,
    fun cfg α bytesOf oracle hlen => ?_, fun x hx => max_eq_left hx,
    by norm_num [roundThroughput], by norm_num [lsRoundThroughput],
    by norm_num [lsOverallMbps]⟩
  · show (tpLoop cfg tpInit oracle).totalBytes * 8 /
        ((tpLoop cfg tpInit oracle).totalTime * 1000) = _
    exact mbps_ms_eq_decimal _ _
  · rw [lsOverallMbps, div_div]
  · rw [lsReportedMbps, if_pos hlen]

/-- Claim C2 witness: a one-round part_001 download with a rejected transfer
records a measurement, so the reported value is `max(computed, 0.1)`; and at a
computed value of 80 Mbps the clamp is the identity. -/
theorem throughput_formula_decimal_witness :
    0 < (lsTPLoop lsDownloadCfg lsDlRoundBytes lsTPInit lsClampOracle).measurements.length ∧
    lsReportedMbps lsDownloadCfg lsDlRoundBytes lsClampOracle =
      some ⟨max (lsOverallMbps
        (lsTPLoop lsDownloadCfg lsDlRoundBytes lsTPInit lsClampOracle).totalBytes
        (lsTPLoop lsDownloadCfg lsDlRoundBytes lsTPInit lsClampOracle).measurementDuration)
        (1 / 10)⟩ ∧
    (1 / 10 : ℚ) ≤ 80 ∧ max (80 : ℚ) (1 / 10) = 80 := by
  have hlen : 0 <
      (lsTPLoop lsDownloadCfg lsDlRoundBytes lsTPInit lsClampOracle).measurements.length := by
    norm_num [lsClampOracle, lsTPLoop, lsTPRound, lsTPInit, lsDownloadCfg, lsDlRoundBytes,
      dlStreamBytes, lsRoundThroughput, lsSetStable]
  exact ⟨hlen,
    throughput_formula_decimal.2.2.2.1 lsDownloadCfg _ lsDlRoundBytes lsClampOracle hlen,
    by norm_num, throughput_formula_decimal.2.2.2.2.1 80 (by norm_num)⟩

/-- Claim C2 counterexample: the part_003 download phase reports
`sizeMB * 8 / sec` with `sizeMB = bytes / 2^20`, so a transfer of 1,000,000
bytes in exactly 100 ms is reported as 78125/1024 ≈ 76.29 Mbps, not the
80 Mbps the claim's formula (bytes × 8 / seconds / 10⁶) demands. -/
theorem part003_mbps_counterexample :
    ls3DownloadMbps 1000000 100 = 78125 / 1024 ∧
    ls3DownloadMbps 1000000 100 ≠ 80 := by
  constructor <;> norm_num [ls3DownloadMbps]

/-- Claim C8: when the first IP-lookup candidate responds ok with
`{ "ip": "203.0.113.5", "country_code": "SG" }`, both `getIP` implementations
return ip `203.0.113.5` and country `SG` regardless of the remaining
candidates, and the zap.js implementation issues exactly one request. -/
theorem getIP_first_success (rest : List (FetchOutcome IPData)) (r1 r2 : ℕ) :
    zapGetIP (FetchOutcome.ok ipDataSG :: rest) r1 r2 =
      (⟨some "203.0.113.5", "SG"⟩, 1) ∧
    lsGetIP (FetchOutcome.ok ipDataSG :: rest) =
      ⟨"203.0.113.5", "SG", "Unknown", "Unknown"⟩ := by
  constructor <;> rfl

/-- Claim C9: in the LibreSpeed round loops, a round's byte count is exactly
the sum of the byte counts of the successful (fulfilled and ok) attempts, and
a failed attempt contributes nothing — removing a rejected attempt from a
round leaves the round's bytes unchanged.  This holds for the download and the
upload accumulation alike. -/
theorem ls_round_byte_accounting :
    (∀ pairs : List (String × StreamOutcome),
      lsDlRoundBytes pairs =
        (((pairs.filter fun p => streamOk p.2).map fun p => dlStreamBytes p.1 p.2).sum)) ∧
    (∀ (l1 l2 : List (String × StreamOutcome)) (u : String),
      lsDlRoundBytes (l1 ++ (u, StreamOutcome.rejected) :: l2) = lsDlRoundBytes (l1 ++ l2)) ∧
    (∀ pairs : List (ℕ × StreamOutcome),
      lsUlRoundBytes pairs =
        (((pairs.filter fun p => streamOk p.2).map fun p => ulStreamBytes p.1 p.2).sum)) ∧
    (∀ (l1 l2 : List (ℕ × StreamOutcome)) (s : ℕ),
      lsUlRoundBytes (l1 ++ (s, StreamOutcome.rejected) :: l2) = lsUlRoundBytes (l1 ++ l2)) := by
  have key : ∀ {α : Type} (f : α → ℕ) (p : α → Bool), (∀ a, p a = false → f a = 0) →
      ∀ l : List α, (l.map f).sum = ((l.filter p).map f).sum := by
    intro α f p h l
    induction l with
    | nil => rfl
    | cons x xs ih =>
      rw [List.map_cons, List.sum_cons, List.filter_cons]
      cases hp : p x
      · rw [h x hp, ih]
        simp [hp]
      · simp only [hp, if_true, List.map_cons, List.sum_cons, ih]
  have hzdl : ∀ a : String × StreamOutcome, streamOk a.2 = false → dlStreamBytes a.1 a.2 = 0 := by
    intro a ha
    obtain ⟨u, o⟩ := a
    cases o with
    | rejected => rfl
    | notOk => rfl
    | ok cl => simp [streamOk] at ha
  have hzul : ∀ a : ℕ × StreamOutcome, streamOk a.2 = false → ulStreamBytes a.1 a.2 = 0 := by
    intro a ha
    obtain ⟨s, o⟩ := a
    cases o with
    | rejected => rfl
    | notOk => rfl
    | ok cl => simp [streamOk] at ha
  have hdl : ∀ pairs : List (String × StreamOutcome),
      lsDlRoundBytes pairs =
        (((pairs.filter fun p => streamOk p.2).map fun p => dlStreamBytes p.1 p.2).sum) := by
    intro pairs
    rw [lsDlRoundBytes, foldl_add_map_eq_nat (fun p => dlStreamBytes p.1 p.2) pairs 0,
      Nat.zero_add]
    exact key _ _ hzdl pairs
  have hul : ∀ pairs : List (ℕ × StreamOutcome),
      lsUlRoundBytes pairs =
        (((pairs.filter fun p => streamOk p.2).map fun p => ulStreamBytes p.1 p.2).sum) := by
    intro pairs
    rw [lsUlRoundBytes, foldl_add_map_eq_nat (fun p => ulStreamBytes p.1 p.2) pairs 0,
      Nat.zero_add]
    exact key _ _ hzul pairs
  refine ⟨hdl, fun l1 l2 u => ?_, hul, fun l1 l2 s => ?_⟩
  · rw [hdl, hdl]
    simp [streamOk]
  · rw [hul, hul]
    simp [streamOk]

/-- Claim C10: with exactly one recorded round, the 10% trim empties the
sorted slice (`slice(0, 0)`), and the guard makes the stable throughput fall
back to the overall Mbps instead of averaging an empty list; consequently a
single-round zap.js throughput phase always reports `stableMbps = mbps`. -/
theorem stable_mbps_single_round :
    (∀ m : Measurement, trimmedMeasurements [m] = []) ∧
    (∀ (fb : ℚ) (m : Measurement), stableThroughputCalc fb [m] = fb) ∧
    (∀ (cfg : ThroughputCfg) (rt ta : ℚ),
      (tpResult cfg [(rt, ta)]).stableMbps = (tpResult cfg [(rt, ta)]).mbps) := by
  have htrim : ∀ m : Measurement, trimmedMeasurements [m] = [] := by
    intro m
    simp only [trimmedMeasurements]
    norm_num [sortByThroughput, insertSorted, jsSlice]
  have hcalc : ∀ (fb : ℚ) (m : Measurement), stableThroughputCalc fb [m] = fb := by
    intro fb m
    rw [stableThroughputCalc, if_pos (by simp : 0 < ([m] : List Measurement).length),
      htrim m]
    rfl
  refine ⟨htrim, hcalc, fun cfg rt ta => ?_⟩
  have hstable : (tpResult cfg [(rt, ta)]).stableMbps =
      stableThroughputCalc ((tpResult cfg [(rt, ta)]).mbps)
        (tpLoop cfg tpInit [(rt, ta)]).measurements := rfl
  rw [hstable]
  have hcases : (tpLoop cfg tpInit [(rt, ta)]).measurements = [] ∨
      ∃ m, (tpLoop cfg tpInit [(rt, ta)]).measurements = [m] := by
    rw [tpLoop]
    split
    · split
      · right
        exact ⟨_, rfl⟩
      · right
        exact ⟨_, rfl⟩
    · left
      rfl
  rcases hcases with hc | ⟨m, hc⟩
  · rw [hc]
    rfl
  · rw [hc, hcalc]

/-- Claim C3: for ten recorded rounds, the trim `slice(floor(10*0.1),
floor(10*0.9)) = slice(1, 9)` drops exactly the first (index 0) and last
(index 9) element of the list sorted ascending by throughput, and the stable
throughput is the mean of the remaining eight. -/
theorem trimmed_mean_ten_rounds (fb : ℚ) (ms : List Measurement) (h : ms.length = 10) :
    (sortByThroughput ms).Sorted (fun a b => a.throughput ≤ b.throughput) ∧
    trimmedMeasurements ms = (sortByThroughput ms).tail.dropLast ∧
    stableThroughputCalc fb ms =
      ((sortByThroughput ms).tail.dropLast.map Measurement.throughput).sum / 8 := by
  have hlen : (sortByThroughput ms).length = 10 := by
    rw [length_sortByThroughput, h]
  have htail : (sortByThroughput ms).tail.length = 9 := by
    rw [List.length_tail, hlen]
  have htrim : trimmedMeasurements ms = (sortByThroughput ms).tail.dropLast := by
    simp only [trimmedMeasurements, jsSlice, hlen]
    norm_num
    rw [List.dropLast_eq_take, htail]
  have hlen8 : ((sortByThroughput ms).tail.dropLast).length = 8 := by
    rw [List.length_dropLast, htail]
  refine ⟨sortByThroughput_sorted ms, htrim, ?_⟩
  rw [stableThroughputCalc, if_pos (by omega : 0 < ms.length), htrim,
    if_pos (by rw [hlen8]; omega), foldl_add_map_eq Measurement.throughput _ 0, zero_add,
    hlen8]
  norm_num

/-- Claim C3 witness: the ten-round scrambled set is sorted, trimmed to its
middle eight records, and averaged. -/
theorem trimmed_mean_ten_rounds_witness :
    tenMeasurements.length = 10 ∧
    ((sortByThroughput tenMeasurements).Sorted (fun a b => a.throughput ≤ b.throughput) ∧
     trimmedMeasurements tenMeasurements = (sortByThroughput tenMeasurements).tail.dropLast ∧
     stableThroughputCalc 0 tenMeasurements =
       ((sortByThroughput tenMeasurements).tail.dropLast.map Measurement.throughput).sum / 8) :=
  ⟨by decide, trimmed_mean_ten_rounds 0 tenMeasurements (by decide)⟩

/-- Claim C4: a throughput phase never declares stability before round
`stabilityWindow + 1`: the consecutive-stable counter only increments when a
positive previous-round throughput exists, so whenever the measurement loop
ends with `isStable = true` the number of rounds performed is at least
`stabilityWindow + 1`. -/
theorem tp_stable_min_rounds (cfg : ThroughputCfg) (oracle : List (ℚ × ℚ))
    (h : (tpLoop cfg tpInit oracle).isStable = true) :
    cfg.stabilityWindow + 1 ≤ (tpLoop cfg tpInit oracle).roundCount :=
  (tpLoop_stableInv cfg oracle tpInit (stableInv_tpInit cfg.stabilityWindow)).2.2 h

/-- Claim C4 witness: under four equal-length rounds the zap.js download loop
declares stability, and it has then performed 3 + 1 = 4 rounds. -/
theorem tp_stable_min_rounds_witness :
    (tpLoop zapDownloadCfg tpInit stableOracle).isStable = true ∧
    zapDownloadCfg.stabilityWindow + 1 ≤
      (tpLoop zapDownloadCfg tpInit stableOracle).roundCount :=
  ⟨by norm_num [stableOracle, tpLoop, tpRound, tpRoundBytes, roundThroughput, setStable,
      tpInit, zapDownloadCfg],
   tp_stable_min_rounds _ _ (by norm_num [stableOracle, tpLoop, tpRound, tpRoundBytes,
      roundThroughput, setStable, tpInit, zapDownloadCfg])⟩

/-- Claim C5 (amended): the LibreSpeed ping phase (part_001) retries the next
candidate within the same sample on failure and records a synthetic fallback
when every candidate of a sample fails, so it always collects exactly
`pingSamples` entries, each either a successful candidate duration or that
sample's synthetic fallback.  The zap.js ping phase does not satisfy this (see
the counterexample). -/
theorem ls_ping_sample_count (n : ℕ) (oracle : ℕ → List (Option ℚ)) (fb : ℕ → ℚ) :
    (lsTestPingSamples n oracle fb).length = n ∧
    ∀ x ∈ lsTestPingSamples n oracle fb,
      (∃ i, i < n ∧ firstSuccess (oracle i) = some x) ∨
      (∃ i, i < n ∧ firstSuccess (oracle i) = none ∧ x = fb i) := by
  constructor
  · rw [lsTestPingSamples, List.length_map, List.length_range]
  · intro x hx
    rw [lsTestPingSamples, List.mem_map] at hx
    obtain ⟨i, hi, hxi⟩ := hx
    rw [List.mem_range] at hi
    cases hfs : firstSuccess (oracle i) with
    | none =>
      rw [hfs] at hxi
      right
      exact ⟨i, hi, hfs, hxi.symm⟩
    | some d =>
      rw [hfs] at hxi
      left
      exact ⟨i, hi, hfs.trans (congrArg Option.some hxi)⟩

/-- Claim C5 counterexample: the zap.js ping phase configured with 5 samples,
where sample 1 succeeds (100 ms) and samples 2-5 fail, collects a single
sample — not the 5 entries the claim demands for every ping phase. -/
theorem zap_ping_count_counterexample :
    (zapPingTests 5 (fun i => if i = 0 then some 100 else none) 60).length = 1 ∧
    (zapPingTests 5 (fun i => if i = 0 then some 100 else none) 60).length ≠ 5 := by
  constructor <;> decide

/-- Claim C6: when every IP-lookup candidate fails (network error or non-2xx
status), both `getIP` implementations return their designated synthetic
fallback (`192.168.x.y` / country `MY` for zap.js, `192.168.1.1` / ISP
`Simulated` for LibreSpeed); being total functions of the outcome list, they
never raise to the caller. -/
theorem getIP_all_fail_fallback (outs : List (FetchOutcome IPData)) (r1 r2 : ℕ)
    (h : ∀ o ∈ outs, o = FetchOutcome.fail ∨ o = FetchOutcome.notOk) :
    (zapGetIP outs r1 r2).1 =
      ⟨some ("192.168." ++ toString r1 ++ "." ++ toString r2), "MY"⟩ ∧
    lsGetIP outs = ⟨"192.168.1.1", "Unknown", "Unknown", "Simulated"⟩ := by
  refine ⟨?_, lsGetIP_fallback outs h⟩
  rw [zapGetIP_fallback outs r1 r2 h]

/-- Claim C6 witness: a concrete candidate list of one network error and one
non-2xx response yields the synthetic fallbacks. -/
theorem getIP_all_fail_fallback_witness :
    (∀ o ∈ ([FetchOutcome.fail, FetchOutcome.notOk] : List (FetchOutcome IPData)),
      o = FetchOutcome.fail ∨ o = FetchOutcome.notOk) ∧
    ((zapGetIP [FetchOutcome.fail, FetchOutcome.notOk] 3 4).1 =
      ⟨some ("192.168." ++ toString 3 ++ "." ++ toString 4), "MY"⟩ ∧
     lsGetIP [FetchOutcome.fail, FetchOutcome.notOk] =
      ⟨"192.168.1.1", "Unknown", "Unknown", "Simulated"⟩) :=
  ⟨by decide, getIP_all_fail_fallback _ 3 4 (by decide)⟩

/-- Claim C7: for every oracle, the ping result's `avgMs` is the arithmetic
mean of the recorded samples, and `minMs` / `maxMs` are the true minimum and
maximum of that same sample set (which is never empty). -/
theorem zap_ping_stats (n : ℕ) (oracle : ℕ → Option ℚ) (r : ℚ) :
    zapPingTests n oracle (zapPingFallback r) ≠ [] ∧
    (zapTestPing n oracle r).avgMs =
      (zapPingTests n oracle (zapPingFallback r)).sum /
        ((zapPingTests n oracle (zapPingFallback r)).length : ℚ) ∧
    (zapTestPing n oracle r).minMs ∈ zapPingTests n oracle (zapPingFallback r) ∧
    (∀ x ∈ zapPingTests n oracle (zapPingFallback r),
      (zapTestPing n oracle r).minMs ≤ x) ∧
    (zapTestPing n oracle r).maxMs ∈ zapPingTests n oracle (zapPingFallback r) ∧
    (∀ x ∈ zapPingTests n oracle (zapPingFallback r),
      x ≤ (zapTestPing n oracle r).maxMs) := by
  have hne := zapPingTests_ne_nil n oracle (zapPingFallback r)
  obtain ⟨hd, t, hht⟩ : ∃ hd t, zapPingTests n oracle (zapPingFallback r) = hd :: t := by
    cases hc : zapPingTests n oracle (zapPingFallback r) with
    | nil => exact absurd hc hne
    | cons hd t => exact ⟨hd, t, rfl⟩
  have havg : (zapTestPing n oracle r).avgMs =
      jsSum (zapPingTests n oracle (zapPingFallback r)) /
        ((zapPingTests n oracle (zapPingFallback r)).length : ℚ) := rfl
  have hmin : (zapTestPing n oracle r).minMs =
      jsMin (zapPingTests n oracle (zapPingFallback r)) := rfl
  have hmax : (zapTestPing n oracle r).maxMs =
      jsMax (zapPingTests n oracle (zapPingFallback r)) := rfl
  refine ⟨hne, ?_, ?_, ?_, ?_, ?_⟩
  · rw [havg, jsSum, foldl_add_eq, zero_add]
  · rw [hmin, hht]
    exact foldl_min_mem hd t
  · intro x hx
    rw [hmin, hht]
    exact foldl_min_le hd t x (by rw [hht] at hx; exact hx)
  · rw [hmax, hht]
    exact foldl_max_mem hd t
  · intro x hx
    rw [hmax, hht]
    exact foldl_max_ge hd t x (by rw [hht] at hx; exact hx)

/-- Claim C1: when every candidate network request fails, both `run()`
implementations still complete and return a report in which all four phase
results are present.  For `ZapZapSpeedTest.run` (a total function of its
oracles): the IP is the synthetic `192.168.x.y` with country `MY`, the average
ping is the synthetic fallback `50 + Math.random() * 100` and so lies in
[50, 150), and the download and upload Mbps are strictly positive.  For
`LibreSpeed.run` (part_001): the IP is the synthetic
`192.168.1.1`/`Simulated`, each of the 3 ping samples is synthesized so the
average lies in [50, 100), and both throughput phases record their 0-byte
rounds and report `Math.max(0, 0.1) = 0.1 > 0 Mbps` — every phase produced its
result through its fallback path rather than letting an error escape. -/
theorem run_total_failure (env : RunEnv) (env2 : LsRunEnv)
    (hip : ∀ o ∈ env.ipOutcomes, o = FetchOutcome.fail ∨ o = FetchOutcome.notOk)
    (hping : ∀ i, env.pingOracle i = none)
    (hr0 : 0 ≤ env.pingR) (hr1 : env.pingR < 1)
    (hdl : env.dlOracle ≠ []) (hdlt : ∀ p ∈ env.dlOracle, 0 < p.2)
    (hul : env.ulOracle ≠ []) (hult : ∀ p ∈ env.ulOracle, 0 < p.2)
    (hip2 : ∀ o ∈ env2.ipOutcomes, o = FetchOutcome.fail ∨ o = FetchOutcome.notOk)
    (hping2 : ∀ i, ∀ c ∈ env2.pingOracle i, c = none)
    (hfb2 : ∀ i, 50 ≤ env2.pingFb i ∧ env2.pingFb i < 100)
    (hdl2 : env2.dlOracle ≠ [])
    (hdlo2 : ∀ r ∈ env2.dlOracle, ∀ p ∈ r.1, p.2 = StreamOutcome.rejected)
    (hul2 : env2.ulOracle ≠ [])
    (hulo2 : ∀ r ∈ env2.ulOracle, ∀ p ∈ r.1, p.2 = StreamOutcome.rejected) :
    ((zapRun env).ip =
      ⟨some ("192.168." ++ toString env.ipR1 ++ "." ++ toString env.ipR2), "MY"⟩ ∧
     (zapRun env).ping.avgMs = 50 + env.pingR * 100 ∧
     50 ≤ (zapRun env).ping.avgMs ∧ (zapRun env).ping.avgMs < 150 ∧
     0 < (zapRun env).download.mbps ∧
     0 < (zapRun env).upload.mbps) ∧
    (lsRun env2 = some
        ⟨⟨"192.168.1.1", "Unknown", "Unknown", "Simulated"⟩,
         lsTestPing 3 env2.pingOracle env2.pingFb, ⟨1 / 10⟩, ⟨1 / 10⟩,
         env2.timestamp⟩ ∧
     (lsTestPing 3 env2.pingOracle env2.pingFb).samples.length = 3 ∧
     50 ≤ (lsTestPing 3 env2.pingOracle env2.pingFb).avgMs ∧
     (lsTestPing 3 env2.pingOracle env2.pingFb).avgMs < 100) := by
  refine ⟨?_, ?_⟩
  case refine_2 =>
    have hdlz : lsTestDownload env2.dlOracle = some ⟨1 / 10⟩ :=
      lsReportedMbps_all_zero lsDownloadCfg (by norm_num [lsDownloadCfg])
        (by norm_num [lsDownloadCfg]) lsDlRoundBytes env2.dlOracle hdl2
        (fun r hr => lsDlRoundBytes_all_rejected r.1 (hdlo2 r hr))
    have hulz : lsTestUpload env2.ulOracle = some ⟨1 / 10⟩ :=
      lsReportedMbps_all_zero lsUploadCfg (by norm_num [lsUploadCfg])
        (by norm_num [lsUploadCfg]) lsUlRoundBytes env2.ulOracle hul2
        (fun r hr => lsUlRoundBytes_all_rejected r.1 (hulo2 r hr))
    obtain ⟨hplen, hp50, hp100⟩ := lsTestPing_all_fail env2.pingOracle env2.pingFb hping2 hfb2
    refine ⟨?_, hplen, hp50, hp100⟩
    have hrun : lsRun env2 = some ⟨lsGetIP env2.ipOutcomes,
        lsTestPing 3 env2.pingOracle env2.pingFb, ⟨1 / 10⟩, ⟨1 / 10⟩,
        env2.timestamp⟩ := by
      unfold lsRun
      rw [hdlz, hulz]
    rw [hrun, lsGetIP_fallback env2.ipOutcomes hip2]
  case refine_1 =>
    have hipR : (zapRun env).ip = (zapGetIP env.ipOutcomes env.ipR1 env.ipR2).1 := rfl
    have havg : (zapRun env).ping.avgMs = zapPingFallback env.pingR :=
      zapTestPing_avg_all_fail 5 env.pingOracle env.pingR hping
    have hfb : zapPingFallback env.pingR = 50 + env.pingR * 100 := rfl
    have hdlrb : 0 < tpRoundBytes zapDownloadCfg := by
      rw [tpRoundBytes, List.sum_replicate, nsmul_eq_mul]
      norm_num [zapDownloadCfg]
    have hulrb : 0 < tpRoundBytes zapUploadCfg := by
      rw [tpRoundBytes, List.sum_replicate, nsmul_eq_mul]
      norm_num [zapUploadCfg]
    refine ⟨?_, ?_, ?_, ?_, ?_, ?_⟩
    · rw [hipR, zapGetIP_fallback env.ipOutcomes env.ipR1 env.ipR2 hip]
    · rw [havg, hfb]
    · rw [havg, hfb]
      linarith
    · rw [havg, hfb]
      linarith
    · show 0 < (tpResult zapDownloadCfg env.dlOracle).mbps
      exact tpResult_mbps_pos zapDownloadCfg hdlrb (by norm_num [zapDownloadCfg])
        (by norm_num [zapDownloadCfg]) env.dlOracle hdl hdlt
    · show 0 < (tpResult zapUploadCfg env.ulOracle).mbps
      exact tpResult_mbps_pos zapUploadCfg hulrb (by norm_num [zapUploadCfg])
        (by norm_num [zapUploadCfg]) env.ulOracle hul hult

/-- Claim C1 witness: concrete environments in which every candidate request
of both clients fails and each throughput loop runs one round. -/
theorem run_total_failure_witness :
    (∀ o ∈ allFailEnv.ipOutcomes, o = FetchOutcome.fail ∨ o = FetchOutcome.notOk) ∧
    (∀ i, allFailEnv.pingOracle i = none) ∧
    (0 ≤ allFailEnv.pingR ∧ allFailEnv.pingR < 1) ∧
    (allFailEnv.dlOracle ≠ [] ∧ (∀ p ∈ allFailEnv.dlOracle, 0 < p.2)) ∧
    (allFailEnv.ulOracle ≠ [] ∧ (∀ p ∈ allFailEnv.ulOracle, 0 < p.2)) ∧
    (∀ o ∈ lsAllFailEnv.ipOutcomes, o = FetchOutcome.fail ∨ o = FetchOutcome.notOk) ∧
    (∀ i, ∀ c ∈ lsAllFailEnv.pingOracle i, c = none) ∧
    (∀ i, 50 ≤ lsAllFailEnv.pingFb i ∧ lsAllFailEnv.pingFb i < 100) ∧
    (lsAllFailEnv.dlOracle ≠ [] ∧
      (∀ r ∈ lsAllFailEnv.dlOracle, ∀ p ∈ r.1, p.2 = StreamOutcome.rejected)) ∧
    (lsAllFailEnv.ulOracle ≠ [] ∧
      (∀ r ∈ lsAllFailEnv.ulOracle, ∀ p ∈ r.1, p.2 = StreamOutcome.rejected)) ∧
    (((zapRun allFailEnv).ip =
      ⟨some ("192.168." ++ toString allFailEnv.ipR1 ++ "." ++ toString allFailEnv.ipR2),
       "MY"⟩ ∧
      (zapRun allFailEnv).ping.avgMs = 50 + allFailEnv.pingR * 100 ∧
      50 ≤ (zapRun allFailEnv).ping.avgMs ∧ (zapRun allFailEnv).ping.avgMs < 150 ∧
      0 < (zapRun allFailEnv).download.mbps ∧
      0 < (zapRun allFailEnv).upload.mbps) ∧
     (lsRun lsAllFailEnv = some
        ⟨⟨"192.168.1.1", "Unknown", "Unknown", "Simulated"⟩,
         lsTestPing 3 lsAllFailEnv.pingOracle lsAllFailEnv.pingFb, ⟨1 / 10⟩, ⟨1 / 10⟩,
         lsAllFailEnv.timestamp⟩ ∧
      (lsTestPing 3 lsAllFailEnv.pingOracle lsAllFailEnv.pingFb).samples.length = 3 ∧
      50 ≤ (lsTestPing 3 lsAllFailEnv.pingOracle lsAllFailEnv.pingFb).avgMs ∧
      (lsTestPing 3 lsAllFailEnv.pingOracle lsAllFailEnv.pingFb).avgMs < 100)) :=
  ⟨by decide, fun _ => rfl, ⟨by norm_num [allFailEnv], by norm_num [allFailEnv]⟩,
   ⟨by simp [allFailEnv], by norm_num [allFailEnv]⟩,
   ⟨by simp [allFailEnv], by norm_num [allFailEnv]⟩,
   by decide, fun _ => by simp [lsAllFailEnv],
   fun _ => ⟨by norm_num [lsAllFailEnv], by norm_num [lsAllFailEnv]⟩,
   ⟨by simp [lsAllFailEnv], by decide⟩,
   ⟨by simp [lsAllFailEnv], by decide⟩,
   run_total_failure allFailEnv lsAllFailEnv (by decide) (fun _ => rfl)
     (by norm_num [allFailEnv]) (by norm_num [allFailEnv]) (by simp [allFailEnv])
     (by norm_num [allFailEnv]) (by simp [allFailEnv]) (by norm_num [allFailEnv])
     (by decide) (fun _ => by simp [lsAllFailEnv])
     (fun _ => ⟨by norm_num [lsAllFailEnv], by norm_num [lsAllFailEnv]⟩)
     (by simp [lsAllFailEnv]) (by decide) (by simp [lsAllFailEnv]) (by decide)⟩
